import Mathlib

/-!
# Verification of the ontology conversion pipeline

Shallow embedding of `src/ontology/scripts/convert_ontologies.py`: an RDF
graph is a list of triples plus a namespace table; the metadata-extraction
functions (`literal_by_lang`, `qname`, `collect_ontology_info`,
`collect_classes`, `property_kind`, `collect_properties`), the loader's
format detection and prefix registration, and the driver's control flow are
translated directly from the script.  Behaviour of the third-party `rdflib`
namespace manager (`normalizeUri`, `bind`) is modelled from the
specification's description, as its code is not part of this repository.
-/

namespace Bhash

/-- An RDF term: a URI reference, a blank node, or a literal with an
optional language tag (the literal datatype plays no role in the script's
logic and is omitted). Mirrors the rdflib term classes used by the script. -/
inductive Term where
  | uri (s : String)
  | bnode (id : String)
  | lit (value : String) (lang : Option String)
deriving DecidableEq, Repr

/-- Python `str(term)`: the URI string, the blank-node id, or the literal's
lexical value. -/
def termToStr : Term → String
  | .uri s => s
  | .bnode i => i
  | .lit v _ => v

/-- Python `isinstance(term, URIRef)`. -/
def Term.isUri : Term → Bool
  | .uri _ => true
  | _ => false

/-- A subject–predicate–object triple. -/
abbrev Triple := Term × Term × Term

/-- An rdflib `Graph`: a collection of triples (listed in insertion order)
plus the namespace table of the graph's namespace manager, an ordered list
of (prefix string, namespace string) bindings. -/
structure Graph where
  triples : List Triple
  ns : List (String × String)
deriving DecidableEq, Repr

/-- The rdflib query `g.subjects(p, o)`: subjects of all triples with the given predicate
and object. -/
def Graph.subjects (g : Graph) (p o : Term) : List Term :=
  (g.triples.filter (fun t => t.2.1 = p ∧ t.2.2 = o)).map (·.1)

/-- The rdflib query `g.objects(s, p)`: objects of all triples with the given subject and
predicate. -/
def Graph.objects (g : Graph) (s p : Term) : List Term :=
  (g.triples.filter (fun t => t.1 = s ∧ t.2.1 = p)).map (·.2.2)

/- The vocabulary URIs the script uses (`RDF.type`, `OWL.Class`, …). -/
namespace V

def rdf_type : Term := .uri "http://www.w3.org/1999/02/22-rdf-syntax-ns#type"
def rdf_Property : Term := .uri "http://www.w3.org/1999/02/22-rdf-syntax-ns#Property"
def owl_Class : Term := .uri "http://www.w3.org/2002/07/owl#Class"
def owl_Ontology : Term := .uri "http://www.w3.org/2002/07/owl#Ontology"
def owl_ObjectProperty : Term := .uri "http://www.w3.org/2002/07/owl#ObjectProperty"
def owl_DatatypeProperty : Term := .uri "http://www.w3.org/2002/07/owl#DatatypeProperty"
def owl_inverseOf : Term := .uri "http://www.w3.org/2002/07/owl#inverseOf"
def rdfs_label : Term := .uri "http://www.w3.org/2000/01/rdf-schema#label"
def rdfs_comment : Term := .uri "http://www.w3.org/2000/01/rdf-schema#comment"
def rdfs_domain : Term := .uri "http://www.w3.org/2000/01/rdf-schema#domain"
def rdfs_range : Term := .uri "http://www.w3.org/2000/01/rdf-schema#range"
def rdfs_subClassOf : Term := .uri "http://www.w3.org/2000/01/rdf-schema#subClassOf"
def rdfs_subPropertyOf : Term := .uri "http://www.w3.org/2000/01/rdf-schema#subPropertyOf"
def skos_definition : Term := .uri "http://www.w3.org/2004/02/skos/core#definition"
def skos_example : Term := .uri "http://www.w3.org/2004/02/skos/core#example"
def dcterms_title : Term := .uri "http://purl.org/dc/terms/title"
def dcterms_description : Term := .uri "http://purl.org/dc/terms/description"

end V

/-- A literal value as handled by the extraction code: lexical form plus
optional language tag (rdflib `Literal.language`). -/
structure LitVal where
  value : String
  lang : Option String
deriving DecidableEq, Repr

/-- The helper `get_literals(graph, s, p)`: the literal objects of `(s, p, _)`
triples. -/
def get_literals (g : Graph) (s p : Term) : List LitVal :=
  (g.objects s p).filterMap (fun t =>
    match t with
    | .lit v l => some ⟨v, l⟩
    | _ => none)

/-- The last literal in `values` carrying language tag `lang` — the entry
the Python dict comprehension `{v.language: v for v in values}` stores for
key `lang` (later entries overwrite earlier ones). -/
def lastWithLang (values : List LitVal) (lang : String) : Option LitVal :=
  (values.filter (fun v => v.lang = some lang)).getLast?

/-- The selector `literal_by_lang(values, preferred)`: walk the preferred-language list;
the first language present in the by-language dict wins (yielding the last
literal with that tag); otherwise fall back to `values[0]` when the list is
non-empty, else `None`.  All call sites in the script use the default
`preferred = ["en"]`. -/
def literal_by_lang (values : List LitVal) (preferred : List String) :
    Option LitVal × List LitVal :=
  match preferred.findSome? (fun lang => lastWithLang values lang) with
  | some v => (some v, values)
  | none => (values.head?, values)

/-- Whether `p` is a prefix of `s`, computed on character lists. -/
def strIsPre (p s : String) : Bool :=
  p.toList.isPrefixOf s.toList

/-- Whether `s` ends with `suf`, computed on character lists. -/
def strEnds (s suf : String) : Bool :=
  suf.toList.isSuffixOf s.toList

/-- The characters of `s` after dropping the first `n`. -/
def strDrop (s : String) (n : Nat) : String :=
  String.mk (s.toList.drop n)

/-- Modelled from the spec: rdflib's `NamespaceManager.normalizeUri`, which
is third-party code not in this repository.  It yields the prefixed form
`pref:local` via the first registered namespace that is a prefix of the
URI, and fails (raises) when no registered namespace matches. -/
def normalizeUri (ns : List (String × String)) (u : String) : Option String :=
  match ns.find? (fun e => strIsPre e.2 u) with
  | some e => some (e.1 ++ ":" ++ strDrop u e.2.length)
  | none => none

/-- The helper `qname(graph, term)`: `normalizeUri` guarded by `try/except` — any
failure falls back to `str(term)`. -/
def qname (g : Graph) (t : Term) : String :=
  match t with
  | .uri s =>
    match normalizeUri g.ns s with
    | some r => r
    | none => s
  | other => termToStr other

/-- Python truthiness of an `Optional[Literal]`: `None` and the
empty-string literal are falsy (rdflib literals inherit `str` truthiness). -/
def litTruthy : Option LitVal → Bool
  | none => false
  | some v => v.value ≠ ""

/-- Python `str(sel) if sel else None`: the lexical value of a truthy selected
literal. -/
def optLitStr : Option LitVal → Option String
  | none => none
  | some v => if v.value = "" then none else some v.value

/-- The shared label computation of `collect_classes` and
`collect_properties`: `str(label_literal) if label_literal else qname(g, s)`
over the language-preferring selection from the `rdfs:label` literals. -/
def labelOf (g : Graph) (s : Term) : String :=
  match (literal_by_lang (get_literals g s V.rdfs_label) ["en"]).1 with
  | some v => if v.value = "" then qname g s else v.value
  | none => qname g s

/-- The dataclass `OntologyHeader`. -/
structure OntologyHeader where
  iri : Option String
  title : Option String
  description : Option String
deriving DecidableEq, Repr

/-- The extractor `collect_ontology_info(g)`: the first subject typed `owl:Ontology`
provides the IRI and the language-preferred title/description literals. -/
def collect_ontology_info (g : Graph) : OntologyHeader :=
  match g.subjects V.rdf_type V.owl_Ontology with
  | [] => ⟨none, none, none⟩
  | ont :: _ =>
    ⟨some (termToStr ont),
     optLitStr (literal_by_lang (get_literals g ont V.dcterms_title) ["en"]).1,
     optLitStr (literal_by_lang (get_literals g ont V.dcterms_description) ["en"]).1⟩

/-- The dataclass `ClassInfo`. -/
structure ClassInfo where
  iri : String
  qname : String
  label : String
  definitions : List LitVal
  comments : List LitVal
  examples : List LitVal
  subClassOf : List String
deriving DecidableEq, Repr

/-- The dataclass `PropertyInfo`. -/
structure PropertyInfo where
  iri : String
  qname : String
  label : String
  kind : String
  comments : List LitVal
  domain : List String
  range : List String
  subPropertyOf : List String
  inverses : List String
deriving DecidableEq, Repr

/-- Python's `str.lower()` on the character list of a string (ASCII case
folding, which covers the extension and label strings the script
handles). -/
def strLower (s : String) : String :=
  String.mk (s.toList.map Char.toLower)

/-- The Python sort key tuple `(x.label.lower(), x.qname)` compared
lexicographically (non-strict, as a stable sort's ordering). -/
def keyLe (a b : String × String) : Prop :=
  a.1 < b.1 ∨ (a.1 = b.1 ∧ a.2 ≤ b.2)

instance : DecidableRel keyLe := fun a b =>
  inferInstanceAs (Decidable (a.1 < b.1 ∨ (a.1 = b.1 ∧ a.2 ≤ b.2)))

/-- Ordering of class descriptors used by `items.sort(key=...)`. -/
def classLe (a b : ClassInfo) : Prop :=
  keyLe (strLower a.label, a.qname) (strLower b.label, b.qname)

instance : DecidableRel classLe := fun a b =>
  inferInstanceAs (Decidable (keyLe (strLower a.label, a.qname) (strLower b.label, b.qname)))

/-- Ordering of property descriptors used by `items.sort(key=...)`. -/
def propLe (a b : PropertyInfo) : Prop :=
  keyLe (strLower a.label, a.qname) (strLower b.label, b.qname)

instance : DecidableRel propLe := fun a b =>
  inferInstanceAs (Decidable (keyLe (strLower a.label, a.qname) (strLower b.label, b.qname)))

/-- Ordering of inverse terms used by `sorted(inverses_set, key=lambda u:
qname(g, u))`. -/
def invLe (g : Graph) (a b : Term) : Prop :=
  qname g a ≤ qname g b

instance (g : Graph) : DecidableRel (invLe g) := fun a b =>
  inferInstanceAs (Decidable (qname g a ≤ qname g b))

/-- The deduplicated subjects carrying an `rdf:type owl:Class` assertion
(the Python set comprehension in `collect_classes`). -/
def classSubjects (g : Graph) : List Term :=
  (g.subjects V.rdf_type V.owl_Class).dedup

/-- The `ClassInfo` built for one class subject in `collect_classes`. -/
def mkClassInfo (g : Graph) (s : Term) : ClassInfo :=
  { iri := termToStr s
    qname := qname g s
    label := labelOf g s
    definitions := get_literals g s V.skos_definition
    comments := get_literals g s V.rdfs_comment
    examples := get_literals g s V.skos_example
    subClassOf := ((g.objects s V.rdfs_subClassOf).filter Term.isUri).map (qname g) }

/-- The extractor `collect_classes(g)`: one descriptor per class-typed subject, sorted by
`(label.lower(), qname)` (Python's stable sort, modelled by the stable
`insertionSort`). -/
def collect_classes (g : Graph) : List ClassInfo :=
  List.insertionSort classLe ((classSubjects g).map (mkClassInfo g))

/-- The resolver `property_kind(g, term)`: test `owl:ObjectProperty` first, then
`owl:DatatypeProperty`, else the generic `"Property"`. -/
def property_kind (g : Graph) (t : Term) : String :=
  if (t, V.rdf_type, V.owl_ObjectProperty) ∈ g.triples then "ObjectProperty"
  else if (t, V.rdf_type, V.owl_DatatypeProperty) ∈ g.triples then "DatatypeProperty"
  else "Property"

/-- The deduplicated union of subjects typed `owl:ObjectProperty`,
`owl:DatatypeProperty` or `rdf:Property` (the set unions in
`collect_properties`). -/
def propSubjects (g : Graph) : List Term :=
  (g.subjects V.rdf_type V.owl_ObjectProperty
    ++ g.subjects V.rdf_type V.owl_DatatypeProperty
    ++ g.subjects V.rdf_type V.rdf_Property).dedup

/-- The set `inverses_set` for subject `s`: URI objects of `(s, owl:inverseOf, _)`
unioned with URI subjects of `(_, owl:inverseOf, s)`, deduplicated. -/
def invTerms (g : Graph) (s : Term) : List Term :=
  (((g.objects s V.owl_inverseOf).filter Term.isUri)
    ++ ((g.subjects V.owl_inverseOf s).filter Term.isUri)).dedup

/-- The `PropertyInfo` built for one property subject in
`collect_properties`; the inverse list sorts the deduplicated inverse terms
by compact name and renders each as its compact name. -/
def mkPropertyInfo (g : Graph) (s : Term) : PropertyInfo :=
  { iri := termToStr s
    qname := qname g s
    label := labelOf g s
    kind := property_kind g s
    comments := get_literals g s V.rdfs_comment
    domain := ((g.objects s V.rdfs_domain).filter Term.isUri).map (qname g)
    range := ((g.objects s V.rdfs_range).filter Term.isUri).map (qname g)
    subPropertyOf := ((g.objects s V.rdfs_subPropertyOf).filter Term.isUri).map (qname g)
    inverses := (List.insertionSort (invLe g) (invTerms g s)).map (qname g) }

/-- The extractor `collect_properties(g)`: one descriptor per property-typed subject,
sorted by `(label.lower(), qname)`. -/
def collect_properties (g : Graph) : List PropertyInfo :=
  List.insertionSort propLe ((propSubjects g).map (mkPropertyInfo g))

/-- Modelled from the spec: rdflib's `namespace_manager.bind(pref, ns,
replace=False)` — third-party code not in this repository — registers the
binding only when the prefix has no existing binding (first registration
wins; conflicts are silently skipped). -/
def bindNoReplace (g : Graph) (pref nsv : String) : Graph :=
  if g.ns.any (fun e => e.1 = pref) then g
  else { g with ns := g.ns ++ [(pref, nsv)] }

/-- The namespace string derived from an ontology IRI in
`ensure_default_prefix`: append `#` unless the IRI already ends in `#` or
`/`. -/
def defaultNs (iri : String) : String :=
  if strEnds iri "#" || strEnds iri "/" then iri else iri ++ "#"

/-- The loader step `ensure_default_prefix(g, ontology_iri)`: no-op on a falsy IRI (absent
or empty), otherwise bind the empty prefix to the derived namespace
without replacing an existing binding. -/
def ensureDefaultPrefix (g : Graph) (ontology_iri : Option String) : Graph :=
  match ontology_iri with
  | none => g
  | some iri => if iri = "" then g else bindNoReplace g "" (defaultNs iri)

/-- The loader step `ensure_common_prefixes(graph)`: bind the five well-known prefixes,
never replacing existing bindings. -/
def ensureCommonPrefixes (g : Graph) : Graph :=
  [("rdf", "http://www.w3.org/1999/02/22-rdf-syntax-ns#"),
   ("rdfs", "http://www.w3.org/2000/01/rdf-schema#"),
   ("owl", "http://www.w3.org/2002/07/owl#"),
   ("skos", "http://www.w3.org/2004/02/skos/core#"),
   ("dcterms", "http://purl.org/dc/terms/")].foldl
    (fun acc e => bindNoReplace acc e.1 e.2) g

/-- The post-parse phase of `load_graph`: bind common prefixes, read the
ontology header, and register the default prefix from its IRI. -/
def load_postparse (g : Graph) : Graph :=
  let g1 := ensureCommonPrefixes g
  ensureDefaultPrefix g1 (collect_ontology_info g1).iri

/-- The table `FORMAT_BY_EXT`: the fixed extension-to-rdflib-format mapping. -/
def FORMAT_BY_EXT : List (String × String) :=
  [(".ttl", "turtle"),
   (".jsonld", "json-ld"),
   (".json", "json-ld"),
   (".owl", "xml"),
   (".rdf", "xml"),
   (".xml", "xml")]

/-- Split a character list at a separator (used to model `pathlib` path
components). -/
def splitChars (sep : Char) : List Char → List (List Char)
  | [] => [[]]
  | a :: rest =>
    let r := splitChars sep rest
    if a = sep then [] :: r
    else
      match r with
      | h :: t => (a :: h) :: t
      | [] => [[a]]

/-- Index of the last occurrence of a character (`str.rfind`), if any. -/
def revFindIdx (c : Char) : List Char → Option Nat
  | [] => none
  | a :: rest =>
    match revFindIdx c rest with
    | some i => some (i + 1)
    | none => if a = c then some 0 else none

/-- Python `pathlib.PurePath.name` of a POSIX path string: the last component,
ignoring empty and `.` components. -/
def pathName (p : String) : List Char :=
  (((splitChars '/' p.toList).filter (fun c => c ≠ [] ∧ c ≠ ['.']))).getLastD []

/-- Python `pathlib.PurePath.suffix`: the final component's last extension with
its leading period, empty when the last dot is leading or trailing. -/
def path_suffix (p : String) : String :=
  let name := pathName p
  match revFindIdx '.' name with
  | some i => if 0 < i ∧ i < name.length - 1 then String.mk (name.drop i) else ""
  | none => ""

/-- The format-detection step of `load_graph`:
`FORMAT_BY_EXT.get(path.suffix.lower())`, raising on an unmapped
extension. -/
def detect_format (p : String) : Except String String :=
  match FORMAT_BY_EXT.lookup (strLower (path_suffix p)) with
  | some f => Except.ok f
  | none => Except.error ("Unsupported input extension for " ++ p)

/-- The per-file pipeline `convert_file` applied over the discovered files in order: the first
failure aborts the run, otherwise all artifact paths are collected. Each
file's conversion is abstracted as a function yielding either its artifact
paths or an error. -/
def convert_all (convert : String → Except String (List String)) :
    List String → Except String (List String)
  | [] => Except.ok []
  | p :: rest =>
    match convert p with
    | Except.error e => Except.error e
    | Except.ok outs =>
      match convert_all convert rest with
      | Except.error e => Except.error e
      | Except.ok more => Except.ok (outs ++ more)

/-- The observable outcome of `run`: the exit status, the artifact files
written, and the progress lines printed. -/
structure RunOutcome where
  exitCode : Nat
  artifacts : List String
  log : List String
deriving DecidableEq, Repr

/-- The control flow of `run` after argument resolution: a missing
template raises; an empty discovery list prints the no-input report and
returns 1 before any artifact is written; otherwise every file is
converted in order and 0 is returned. -/
def run_model (source_dir deployment_dir basis template_path : String)
    (template_exists : Bool) (files : List String)
    (convert : String → Except String (List String)) :
    Except String RunOutcome :=
  if template_exists = false then
    Except.error ("Template not found: " ++ template_path)
  else if files = [] then
    Except.ok ⟨1, [],
      ["No source files matching *." ++ basis ++ " under " ++ source_dir]⟩
  else
    match convert_all convert files with
    | Except.error e => Except.error e
    | Except.ok outs =>
      Except.ok ⟨0, outs,
        ("Converting " ++ toString files.length ++ " ontologies from "
          ++ source_dir ++ " using basis ." ++ basis ++ "...")
        :: files.map (fun f => "- " ++ f)
        ++ ["Finished writing artefacts to " ++ deployment_dir]⟩

/-!  Concrete graphs used to instantiate the theorems at explicit inputs.  -/

/-- A graph with two object properties declared inverse in one direction. -/
def gInv : Graph :=
  ⟨[(.uri "http://e/hasParent", V.rdf_type, V.owl_ObjectProperty),
    (.uri "http://e/hasChild", V.rdf_type, V.owl_ObjectProperty),
    (.uri "http://e/hasParent", V.owl_inverseOf, .uri "http://e/hasChild")],
   [("ex", "http://e/")]⟩

/-- A graph with a doubly-typed property and a generic property. -/
def gKinds : Graph :=
  ⟨[(.uri "http://e/p1", V.rdf_type, V.owl_ObjectProperty),
    (.uri "http://e/p1", V.rdf_type, V.owl_DatatypeProperty),
    (.uri "http://e/p2", V.rdf_type, V.rdf_Property)],
   [("ex", "http://e/")]⟩

/-- A graph with a labelled and an unlabelled class. -/
def gCls : Graph :=
  ⟨[(.uri "http://e/B", V.rdf_type, V.owl_Class),
    (.uri "http://e/A", V.rdf_type, V.owl_Class),
    (.uri "http://e/B", V.rdfs_label, .lit "Beta" (some "en"))],
   [("ex", "http://e/")]⟩

/-- A graph declaring one ontology with a hashless IRI. -/
def gOnt : Graph :=
  ⟨[(.uri "http://ex/onto", V.rdf_type, V.owl_Ontology)], []⟩

/-- A graph whose single subject is typed both as a class and as an object
property. -/
def gBoth : Graph :=
  ⟨[(.uri "http://e/X", V.rdf_type, V.owl_Class),
    (.uri "http://e/X", V.rdf_type, V.owl_ObjectProperty)],
   []⟩

/-!  Order-theoretic facts about the sort relations, needed to prove the
collectors' output sorted.  -/

theorem keyLe_total (a b : String × String) : keyLe a b ∨ keyLe b a := by
  rcases lt_trichotomy a.1 b.1 with h | h | h
  · exact Or.inl (Or.inl h)
  · rcases le_total a.2 b.2 with h2 | h2
    · exact Or.inl (Or.inr ⟨h, h2⟩)
    · exact Or.inr (Or.inr ⟨h.symm, h2⟩)
  · exact Or.inr (Or.inl h)

theorem keyLe_trans (a b c : String × String) :
    keyLe a b → keyLe b c → keyLe a c := by
  rintro (h1 | ⟨h1, h1'⟩) (h2 | ⟨h2, h2'⟩)
  · exact Or.inl (lt_trans h1 h2)
  · exact Or.inl (h2 ▸ h1)
  · exact Or.inl (h1 ▸ h2)
  · exact Or.inr ⟨h1.trans h2, le_trans h1' h2'⟩

instance : IsTotal (String × String) keyLe := ⟨keyLe_total⟩

instance : IsTrans (String × String) keyLe := ⟨keyLe_trans⟩

instance : IsTotal ClassInfo classLe := ⟨fun _ _ => keyLe_total _ _⟩

instance : IsTrans ClassInfo classLe := ⟨fun _ _ _ => keyLe_trans _ _ _⟩

instance : IsTotal PropertyInfo propLe := ⟨fun _ _ => keyLe_total _ _⟩

instance : IsTrans PropertyInfo propLe := ⟨fun _ _ _ => keyLe_trans _ _ _⟩

instance (g : Graph) : IsTotal Term (invLe g) := ⟨fun _ _ => le_total _ _⟩

instance (g : Graph) : IsTrans Term (invLe g) := ⟨fun _ _ _ => le_trans⟩

/-- Membership in the class-subject set is exactly a `rdf:type owl:Class`
assertion. -/
theorem mem_classSubjects {g : Graph} {s : Term} :
    s ∈ classSubjects g ↔ (s, V.rdf_type, V.owl_Class) ∈ g.triples := by
  simp only [classSubjects, Graph.subjects, List.mem_dedup, List.mem_map,
    List.mem_filter, decide_eq_true_eq]
  constructor
  · rintro ⟨t, ⟨ht, hp, ho⟩, rfl⟩
    have : t = (t.1, t.2.1, t.2.2) := rfl
    rw [this, hp, ho] at ht
    exact ht
  · intro h
    exact ⟨(s, V.rdf_type, V.owl_Class), ⟨h, rfl, rfl⟩, rfl⟩

/-- Membership in `g.subjects p o` is exactly a `(s, p, o)` triple. -/
theorem mem_subjects {g : Graph} {s p o : Term} :
    s ∈ g.subjects p o ↔ (s, p, o) ∈ g.triples := by
  simp only [Graph.subjects, List.mem_map, List.mem_filter, decide_eq_true_eq]
  constructor
  · rintro ⟨t, ⟨ht, hp, ho⟩, rfl⟩
    have : t = (t.1, t.2.1, t.2.2) := rfl
    rw [this, hp, ho] at ht
    exact ht
  · intro h
    exact ⟨(s, p, o), ⟨h, rfl, rfl⟩, rfl⟩

/-- Membership in `g.objects s p` is exactly a `(s, p, o)` triple. -/
theorem mem_objects {g : Graph} {s p o : Term} :
    o ∈ g.objects s p ↔ (s, p, o) ∈ g.triples := by
  simp only [Graph.objects, List.mem_map, List.mem_filter, decide_eq_true_eq]
  constructor
  · rintro ⟨t, ⟨ht, hs, hp⟩, rfl⟩
    have : t = (t.1, t.2.1, t.2.2) := rfl
    rw [this, hs, hp] at ht
    exact ht
  · intro h
    exact ⟨(s, p, o), ⟨h, rfl, rfl⟩, rfl⟩

/-- Membership in the property-subject set is exactly one of the three
property-kind type assertions. -/
theorem mem_propSubjects {g : Graph} {s : Term} :
    s ∈ propSubjects g ↔
      (s, V.rdf_type, V.owl_ObjectProperty) ∈ g.triples
      ∨ (s, V.rdf_type, V.owl_DatatypeProperty) ∈ g.triples
      ∨ (s, V.rdf_type, V.rdf_Property) ∈ g.triples := by
  simp only [propSubjects, List.mem_dedup, List.mem_append, mem_subjects, or_assoc]

/-- Membership in the deduplicated inverse-term set. -/
theorem mem_invTerms {g : Graph} {s t : Term} :
    t ∈ invTerms g s ↔
      (((s, V.owl_inverseOf, t) ∈ g.triples ∨ (t, V.owl_inverseOf, s) ∈ g.triples)
        ∧ t.isUri = true) := by
  simp only [invTerms, List.mem_dedup, List.mem_append, List.mem_filter,
    mem_subjects, mem_objects, or_and_right]

/-- The selected literal of `literal_by_lang` with the default preference
list: the by-language dict lookup for `"en"`, falling back to the head. -/
theorem literal_by_lang_en_fst (values : List LitVal) :
    (literal_by_lang values ["en"]).1 =
      (lastWithLang values "en").or values.head? := by
  unfold literal_by_lang
  rw [List.findSome?_cons]
  cases h : lastWithLang values "en" <;> simp [h, List.findSome?_nil]

/-- C1: language-preferring selection with the default `["en"]` preference:
when some literal carries language `"en"`, an `"en"`-tagged member of the
list is selected; when the list is non-empty without any `"en"`-tagged
literal, the first element is selected; when the list is empty, nothing is
selected. -/
theorem c1_literal_by_lang_en_selection (values : List LitVal) :
    ((∃ v ∈ values, v.lang = some "en") →
      ∃ r, (literal_by_lang values ["en"]).1 = some r
        ∧ r ∈ values ∧ r.lang = some "en")
    ∧ (values ≠ [] → (∀ v ∈ values, v.lang ≠ some "en") →
      (literal_by_lang values ["en"]).1 = values.head?)
    ∧ (values = [] → (literal_by_lang values ["en"]).1 = none) := by
  refine ⟨?_, ?_, ?_⟩
  · rintro ⟨v, hv, hlang⟩
    have hmem : v ∈ values.filter (fun w => w.lang = some "en") :=
      List.mem_filter.mpr ⟨hv, by simp [hlang]⟩
    have hne : values.filter (fun w => w.lang = some "en") ≠ [] :=
      List.ne_nil_of_mem hmem
    obtain ⟨r, hr⟩ := Option.isSome_iff_exists.mp (List.getLast?_isSome.mpr hne)
    refine ⟨r, ?_, ?_, ?_⟩
    · rw [literal_by_lang_en_fst]
      unfold lastWithLang
      rw [hr]
      rfl
    · exact (List.mem_filter.mp (List.mem_of_getLast?_eq_some hr)).1
    · have := (List.mem_filter.mp (List.mem_of_getLast?_eq_some hr)).2
      simpa using this
  · intro _ hnone
    have hfil : values.filter (fun w => w.lang = some "en") = [] := by
      rw [List.filter_eq_nil_iff]
      intro a ha
      simp [hnone a ha]
    rw [literal_by_lang_en_fst]
    unfold lastWithLang
    rw [hfil]
    rfl
  · rintro rfl
    rfl

/-- C3: every collected property descriptor's kind tag is one of
`"ObjectProperty"`, `"DatatypeProperty"` and the generic default
`"Property"` (the spec's GenericProperty), resolved by testing for an
ObjectProperty type assertion first, then DatatypeProperty, then
defaulting. -/
theorem c3_property_kind_resolution (g : Graph) :
    (∀ p ∈ collect_properties g,
      p.kind = "ObjectProperty" ∨ p.kind = "DatatypeProperty" ∨ p.kind = "Property")
    ∧ (∀ s : Term,
      ((s, V.rdf_type, V.owl_ObjectProperty) ∈ g.triples →
        property_kind g s = "ObjectProperty")
      ∧ ((s, V.rdf_type, V.owl_ObjectProperty) ∉ g.triples →
          (s, V.rdf_type, V.owl_DatatypeProperty) ∈ g.triples →
          property_kind g s = "DatatypeProperty")
      ∧ ((s, V.rdf_type, V.owl_ObjectProperty) ∉ g.triples →
          (s, V.rdf_type, V.owl_DatatypeProperty) ∉ g.triples →
          property_kind g s = "Property"))
    ∧ (∀ s ∈ propSubjects g, (mkPropertyInfo g s).kind = property_kind g s) := by
  refine ⟨?_, ?_, fun s _ => rfl⟩
  · intro p hp
    have hp' : p ∈ (propSubjects g).map (mkPropertyInfo g) := by
      simpa [collect_properties] using hp
    obtain ⟨s, _, rfl⟩ := List.mem_map.mp hp'
    show property_kind g s = _ ∨ property_kind g s = _ ∨ property_kind g s = _
    unfold property_kind
    split
    · exact Or.inl rfl
    · split
      · exact Or.inr (Or.inl rfl)
      · exact Or.inr (Or.inr rfl)
  · intro s
    refine ⟨fun h => ?_, fun h1 h2 => ?_, fun h1 h2 => ?_⟩
    · unfold property_kind
      rw [if_pos h]
    · unfold property_kind
      rw [if_neg h1, if_pos h2]
    · unfold property_kind
      rw [if_neg h1, if_neg h2]

/-- Witness for C3: in `gKinds`, the doubly-typed subject resolves to
ObjectProperty by precedence and the plainly-typed one defaults to the
generic kind. -/
theorem c3_property_kind_resolution_witness :
    property_kind gKinds (Term.uri "http://e/p1") = "ObjectProperty"
    ∧ property_kind gKinds (Term.uri "http://e/p2") = "Property" :=
  ⟨((c3_property_kind_resolution gKinds).2.1 (Term.uri "http://e/p1")).1 (by decide),
   ((c3_property_kind_resolution gKinds).2.1 (Term.uri "http://e/p2")).2.2
     (by decide) (by decide)⟩

/-- C6: compact-name resolution is a total function: when no registered
namespace is a prefix of the URI (the modelled internal failure), the full
identifier string is returned unmodified; when the namespace table finds a
matching entry, the prefixed form is returned. -/
theorem c6_qname_total_fallback (g : Graph) (u : String) :
    ((∀ e ∈ g.ns, strIsPre e.2 u = false) → qname g (Term.uri u) = u)
    ∧ (∀ pr nsv, g.ns.find? (fun e => strIsPre e.2 u) = some (pr, nsv) →
        (pr, nsv) ∈ g.ns ∧ strIsPre nsv u = true
          ∧ qname g (Term.uri u) = pr ++ ":" ++ strDrop u nsv.length) := by
  constructor
  · intro h
    have hnone : g.ns.find? (fun e => strIsPre e.2 u) = none := by
      rw [List.find?_eq_none]
      intro e he
      simp [h e he]
    have hq : qname g (Term.uri u) =
        match normalizeUri g.ns u with
        | some r => r
        | none => u := rfl
    rw [hq]
    unfold normalizeUri
    rw [hnone]
  · intro pr nsv hfind
    refine ⟨List.mem_of_find?_eq_some hfind, ?_, ?_⟩
    · simpa using List.find?_some hfind
    · have hq : qname g (Term.uri u) =
          match normalizeUri g.ns u with
          | some r => r
          | none => u := rfl
      rw [hq]
      unfold normalizeUri
      rw [hfind]

/-- Witness for C6: with the table `[("ex", "http://e/")]`, a matching URI
renders prefixed and a non-matching URI falls back to itself. -/
theorem c6_qname_total_fallback_witness :
    qname ⟨[], [("ex", "http://e/")]⟩ (Term.uri "http://e/A") =
      "ex" ++ ":" ++ strDrop "http://e/A" "http://e/".length
    ∧ qname ⟨[], [("ex", "http://e/")]⟩ (Term.uri "urn:isbn:1") = "urn:isbn:1" :=
  ⟨((c6_qname_total_fallback ⟨[], [("ex", "http://e/")]⟩ "http://e/A").2
      "ex" "http://e/" (by decide)).2.2,
   (c6_qname_total_fallback ⟨[], [("ex", "http://e/")]⟩ "urn:isbn:1").1 (by decide)⟩

/-- The extension table as an if-chain, for case analysis. -/
theorem lookup_fmt (e : String) :
    FORMAT_BY_EXT.lookup e =
      if e = ".ttl" then some "turtle"
      else if e = ".jsonld" then some "json-ld"
      else if e = ".json" then some "json-ld"
      else if e = ".owl" then some "xml"
      else if e = ".rdf" then some "xml"
      else if e = ".xml" then some "xml"
      else none := by
  by_cases h1 : e = ".ttl"
  · subst h1; decide
  by_cases h2 : e = ".jsonld"
  · subst h2; decide
  by_cases h3 : e = ".json"
  · subst h3; decide
  by_cases h4 : e = ".owl"
  · subst h4; decide
  by_cases h5 : e = ".rdf"
  · subst h5; decide
  by_cases h6 : e = ".xml"
  · subst h6; decide
  simp [FORMAT_BY_EXT, List.lookup, h1, h2, h3, h4, h5, h6,
    beq_eq_false_iff_ne.mpr h1, beq_eq_false_iff_ne.mpr h2,
    beq_eq_false_iff_ne.mpr h3, beq_eq_false_iff_ne.mpr h4,
    beq_eq_false_iff_ne.mpr h5, beq_eq_false_iff_ne.mpr h6]

/-- The detected format depends only on the lowercased suffix: equal
lowered suffixes give the same parse format. -/
theorem detect_format_ext (q p : String)
    (h : strLower (path_suffix q) = strLower (path_suffix p)) (f : String) :
    detect_format q = Except.ok f ↔ detect_format p = Except.ok f := by
  unfold detect_format
  rw [h]
  cases hx : FORMAT_BY_EXT.lookup (strLower (path_suffix p)) <;> simp [hx]

/-- C4: the loader's parse format is a pure function of the file's
(lowercased) extension via the fixed mapping `.ttl`→turtle,
`.jsonld`/`.json`→json-ld, `.owl`/`.rdf`/`.xml`→xml, and it fails with the
unsupported-extension error exactly when the extension is outside the
mapping. -/
theorem c4_format_from_extension (p : String) :
    (detect_format p = Except.ok "turtle" ↔ strLower (path_suffix p) = ".ttl")
    ∧ (detect_format p = Except.ok "json-ld" ↔
        (strLower (path_suffix p) = ".jsonld" ∨ strLower (path_suffix p) = ".json"))
    ∧ (detect_format p = Except.ok "xml" ↔
        (strLower (path_suffix p) = ".owl" ∨ strLower (path_suffix p) = ".rdf"
          ∨ strLower (path_suffix p) = ".xml"))
    ∧ (detect_format p = Except.error ("Unsupported input extension for " ++ p) ↔
        strLower (path_suffix p) ∉
          [".ttl", ".jsonld", ".json", ".owl", ".rdf", ".xml"])
    ∧ (∀ q : String, strLower (path_suffix q) = strLower (path_suffix p) →
        ∀ f, (detect_format q = Except.ok f ↔ detect_format p = Except.ok f)) := by
  refine ?_
  have hd : detect_format p =
      match FORMAT_BY_EXT.lookup (strLower (path_suffix p)) with
      | some f => Except.ok f
      | none => Except.error ("Unsupported input extension for " ++ p) := rfl
  refine ⟨?_, ?_, ?_, ?_, fun q hq f => detect_format_ext q p hq f⟩ <;>
    rw [hd, lookup_fmt] <;>
    split_ifs with h1 h2 h3 h4 h5 h6 <;>
    simp_all

/-- Witness for C4: a Turtle path is detected as turtle and an unmapped
extension is rejected with the unsupported-extension error. -/
theorem c4_format_from_extension_witness :
    detect_format "dir/onto.owl" = Except.ok "xml"
    ∧ detect_format "dir/onto.nt" =
        Except.error ("Unsupported input extension for " ++ "dir/onto.nt") :=
  ⟨(c4_format_from_extension "dir/onto.owl").2.2.1.mpr (Or.inl (by decide)),
   (c4_format_from_extension "dir/onto.nt").2.2.2.1.mpr (by decide)⟩

/-- C9: the suffix is lowercased before the mapping is consulted — two
paths with the same lowered suffix detect identically, an upper-case
`.TTL` file is parsed as Turtle, and yet `.TTL` itself is not a key of the
mapping. -/
theorem c9_case_insensitive_detection :
    (∀ p q : String, strLower (path_suffix p) = strLower (path_suffix q) →
      ∀ f, (detect_format p = Except.ok f ↔ detect_format q = Except.ok f))
    ∧ detect_format "onto.TTL" = Except.ok "turtle"
    ∧ FORMAT_BY_EXT.lookup ".TTL" = none
    ∧ path_suffix "onto.TTL" = ".TTL" :=
  ⟨fun p q h f => detect_format_ext p q h f, rfl, by decide, by decide⟩

/-- Witness for C9: applying the suffix-invariance at two concrete paths
whose suffixes differ only by case. -/
theorem c9_case_insensitive_detection_witness :
    detect_format "a/b.TTL" = Except.ok "turtle" :=
  (c9_case_insensitive_detection.1 "a/b.TTL" "c.ttl" (by decide) "turtle").mpr rfl

/-- C7: after a parse, the loader derives the default namespace from the
declared ontology identifier — appending `#` exactly when the identifier
ends in neither `#` nor `/` — and registers it under the empty prefix only
when no default binding exists; an existing default binding is left
untouched, and with no declared identifier nothing is registered. -/
theorem c7_default_namespace_registration (g : Graph) :
    (∀ iri, (collect_ontology_info (ensureCommonPrefixes g)).iri = some iri →
      iri ≠ "" →
      ((∀ e ∈ (ensureCommonPrefixes g).ns, e.1 ≠ "") →
        (load_postparse g).ns = (ensureCommonPrefixes g).ns ++ [("", defaultNs iri)])
      ∧ ((∃ n, ("", n) ∈ (ensureCommonPrefixes g).ns) →
        load_postparse g = ensureCommonPrefixes g))
    ∧ ((collect_ontology_info (ensureCommonPrefixes g)).iri = none →
      load_postparse g = ensureCommonPrefixes g)
    ∧ (∀ i : String, (strEnds i "#" || strEnds i "/") = true → defaultNs i = i)
    ∧ (∀ i : String, (strEnds i "#" || strEnds i "/") = false →
      defaultNs i = i ++ "#") := by
  have hlp : load_postparse g =
      ensureDefaultPrefix (ensureCommonPrefixes g)
        (collect_ontology_info (ensureCommonPrefixes g)).iri := rfl
  refine ⟨?_, ?_, ?_, ?_⟩
  · intro iri hiri hne
    have hd : ensureDefaultPrefix (ensureCommonPrefixes g) (some iri) =
        if iri = "" then ensureCommonPrefixes g
        else bindNoReplace (ensureCommonPrefixes g) "" (defaultNs iri) := rfl
    constructor
    · intro hnodef
      rw [hlp, hiri, hd, if_neg hne]
      unfold bindNoReplace
      rw [if_neg ?_]
      intro hany
      obtain ⟨e, he, he'⟩ := List.any_eq_true.mp hany
      exact hnodef e he (by simpa using he')
    · rintro ⟨n, hn⟩
      rw [hlp, hiri, hd, if_neg hne]
      unfold bindNoReplace
      rw [if_pos (List.any_eq_true.mpr ⟨("", n), hn, by simp⟩)]
  · intro hnone
    rw [hlp, hnone]
    rfl
  · intro i h
    unfold defaultNs
    rw [if_pos h]
  · intro i h
    unfold defaultNs
    rw [if_neg (by simp [h])]

/-- Witness for C7: `gOnt` declares the slashless, hashless identifier
`http://ex/onto`; after loading, the default prefix maps to the identifier
with `#` appended, following the five untouched common bindings. -/
theorem c7_default_namespace_registration_witness :
    (load_postparse gOnt).ns =
      (ensureCommonPrefixes gOnt).ns ++ [("", defaultNs "http://ex/onto")]
    ∧ defaultNs "http://ex/onto" = "http://ex/onto" ++ "#" :=
  ⟨(((c7_default_namespace_registration gOnt).1 "http://ex/onto"
      (by decide) (by decide)).1) (by decide),
   (c7_default_namespace_registration gOnt).2.2.2 "http://ex/onto" (by decide)⟩

/-- All files convert successfully, so the whole fold succeeds. -/
theorem convert_all_ok (convert : String → Except String (List String)) :
    ∀ files : List String,
      (∀ f ∈ files, ∃ outs, convert f = Except.ok outs) →
      ∃ outs, convert_all convert files = Except.ok outs := by
  intro files
  induction files with
  | nil => exact fun _ => ⟨[], rfl⟩
  | cons a rest ih =>
    intro h
    obtain ⟨oa, hoa⟩ := h a (by simp)
    obtain ⟨orest, horest⟩ := ih (fun f hf => h f (by simp [hf]))
    refine ⟨oa ++ orest, ?_⟩
    unfold convert_all
    rw [hoa, horest]

/-- C8: with an existing template, empty discovery yields exit status 1,
no artifacts, and the no-input report; when every file converts
successfully the run returns exit status 0. -/
theorem c8_run_exit_status (sd dd basis tp : String) (files : List String)
    (convert : String → Except String (List String)) :
    (files = [] → run_model sd dd basis tp true files convert =
      Except.ok ⟨1, [],
        ["No source files matching *." ++ basis ++ " under " ++ sd]⟩)
    ∧ (files ≠ [] → (∀ f ∈ files, ∃ outs, convert f = Except.ok outs) →
      ∃ o, run_model sd dd basis tp true files convert = Except.ok o
        ∧ o.exitCode = 0) := by
  constructor
  · rintro rfl
    rfl
  · intro hne hok
    obtain ⟨outs, houts⟩ := convert_all_ok convert files hok
    refine ⟨⟨0, outs,
      ("Converting " ++ toString files.length ++ " ontologies from "
        ++ sd ++ " using basis ." ++ basis ++ "...")
      :: files.map (fun f => "- " ++ f)
      ++ ["Finished writing artefacts to " ++ dd]⟩, ?_, rfl⟩
    unfold run_model
    rw [if_neg (by decide), if_neg hne, houts]

/-- Witness for C8: an empty discovery list exits 1 with no artifacts and
the report; a singleton list with a succeeding conversion exits 0. -/
theorem c8_run_exit_status_witness :
    run_model "src" "dep" "ttl" "t.j2" true [] (fun f => Except.ok [f]) =
      Except.ok ⟨1, [], ["No source files matching *." ++ "ttl" ++ " under " ++ "src"]⟩
    ∧ ∃ o, run_model "src" "dep" "ttl" "t.j2" true ["a.ttl"]
        (fun f => Except.ok [f]) = Except.ok o ∧ o.exitCode = 0 :=
  ⟨(c8_run_exit_status "src" "dep" "ttl" "t.j2" [] (fun f => Except.ok [f])).1 rfl,
   (c8_run_exit_status "src" "dep" "ttl" "t.j2" ["a.ttl"]
      (fun f => Except.ok [f])).2 (by decide) (fun f _ => ⟨[f], rfl⟩)⟩

/-- C5: every class descriptor arises from a class-typed subject; a
subject with no label literal gets its compact name as display label; the
class list is sorted ascending by (lowercased label, compact name); and
re-running extraction on an unchanged graph yields the identical list
(immediate in this functional model, where Python's set-iteration
nondeterminism is fixed to first-occurrence order). -/
theorem c5_collect_classes_default_label_sorted (g : Graph) :
    (∀ c ∈ collect_classes g, ∃ s ∈ classSubjects g, c = mkClassInfo g s)
    ∧ (∀ s ∈ classSubjects g, mkClassInfo g s ∈ collect_classes g)
    ∧ (∀ s : Term, get_literals g s V.rdfs_label = [] →
      (mkClassInfo g s).label = (mkClassInfo g s).qname)
    ∧ List.Sorted classLe (collect_classes g)
    ∧ collect_classes g = collect_classes g := by
  refine ⟨?_, ?_, ?_, List.sorted_insertionSort classLe _, rfl⟩
  · intro c hc
    have hc' : c ∈ (classSubjects g).map (mkClassInfo g) := by
      simpa [collect_classes] using hc
    obtain ⟨s, hs, rfl⟩ := List.mem_map.mp hc'
    exact ⟨s, hs, rfl⟩
  · intro s hs
    have : mkClassInfo g s ∈ (classSubjects g).map (mkClassInfo g) :=
      List.mem_map_of_mem _ hs
    simpa [collect_classes] using this
  · intro s hlab
    show labelOf g s = qname g s
    unfold labelOf
    rw [hlab]
    rfl

/-- Witness for C5: in `gCls`, the unlabelled class `http://e/A` displays
its compact name, its descriptor is in the list, and the list is sorted. -/
theorem c5_collect_classes_default_label_sorted_witness :
    (mkClassInfo gCls (Term.uri "http://e/A")).label
      = (mkClassInfo gCls (Term.uri "http://e/A")).qname
    ∧ mkClassInfo gCls (Term.uri "http://e/A") ∈ collect_classes gCls
    ∧ List.Sorted classLe (collect_classes gCls) :=
  ⟨(c5_collect_classes_default_label_sorted gCls).2.2.1
      (Term.uri "http://e/A") (by decide),
   (c5_collect_classes_default_label_sorted gCls).2.1
      (Term.uri "http://e/A") (by decide),
   (c5_collect_classes_default_label_sorted gCls).2.2.2.1⟩

/-- C2: an inverse-of assertion between property subjects `A` and `B`, in
either direction, puts `B`'s compact name in `A`'s inverse list and `A`'s
compact name in `B`'s inverse list; every inverse list is the compact-name
image of a deduplicated term set, sorted ascending by compact name. -/
theorem c2_inverse_lists_symmetric (g : Graph) (A B : String)
    (hinv : (Term.uri A, V.owl_inverseOf, Term.uri B) ∈ g.triples
      ∨ (Term.uri B, V.owl_inverseOf, Term.uri A) ∈ g.triples)
    (hA : Term.uri A ∈ propSubjects g) (hB : Term.uri B ∈ propSubjects g) :
    (mkPropertyInfo g (Term.uri A) ∈ collect_properties g
      ∧ (mkPropertyInfo g (Term.uri A)).iri = A
      ∧ qname g (Term.uri B) ∈ (mkPropertyInfo g (Term.uri A)).inverses)
    ∧ (mkPropertyInfo g (Term.uri B) ∈ collect_properties g
      ∧ (mkPropertyInfo g (Term.uri B)).iri = B
      ∧ qname g (Term.uri A) ∈ (mkPropertyInfo g (Term.uri B)).inverses)
    ∧ (∀ s : Term,
      List.Sorted (fun x y : String => x ≤ y) ((mkPropertyInfo g s).inverses)
      ∧ (invTerms g s).Nodup
      ∧ (mkPropertyInfo g s).inverses
          = (List.insertionSort (invLe g) (invTerms g s)).map (qname g)) := by
  have hmemP : ∀ t : Term, t ∈ propSubjects g →
      mkPropertyInfo g t ∈ collect_properties g := by
    intro t ht
    have : mkPropertyInfo g t ∈ (propSubjects g).map (mkPropertyInfo g) :=
      List.mem_map_of_mem _ ht
    simpa [collect_properties] using this
  have hinvmem : ∀ s t : Term, t ∈ invTerms g s →
      qname g t ∈ (mkPropertyInfo g s).inverses := by
    intro s t ht
    show qname g t ∈ (List.insertionSort (invLe g) (invTerms g s)).map (qname g)
    exact List.mem_map_of_mem _ ((List.mem_insertionSort _).mpr ht)
  refine ⟨⟨hmemP _ hA, rfl, ?_⟩, ⟨hmemP _ hB, rfl, ?_⟩, ?_⟩
  · exact hinvmem _ _ (mem_invTerms.mpr ⟨hinv, rfl⟩)
  · exact hinvmem _ _ (mem_invTerms.mpr ⟨hinv.symm, rfl⟩)
  · intro s
    refine ⟨?_, List.nodup_dedup _, rfl⟩
    have hs : List.Sorted (invLe g)
        (List.insertionSort (invLe g) (invTerms g s)) :=
      List.sorted_insertionSort (invLe g) _
    exact List.Pairwise.map _ (fun a b h => h) hs

/-- Witness for C2: in `gInv`, the single forward declaration puts each
property's compact name in the other's inverse list. -/
theorem c2_inverse_lists_symmetric_witness :
    qname gInv (Term.uri "http://e/hasChild")
      ∈ (mkPropertyInfo gInv (Term.uri "http://e/hasParent")).inverses
    ∧ qname gInv (Term.uri "http://e/hasParent")
      ∈ (mkPropertyInfo gInv (Term.uri "http://e/hasChild")).inverses :=
  ⟨((c2_inverse_lists_symmetric gInv "http://e/hasParent" "http://e/hasChild"
      (Or.inl (by decide)) (by decide) (by decide)).1).2.2,
   ((c2_inverse_lists_symmetric gInv "http://e/hasParent" "http://e/hasChild"
      (Or.inl (by decide)) (by decide) (by decide)).2.1).2.2⟩

/-- C10: a subject typed both as a class and as one of the three property
kinds receives a descriptor in both collections. -/
theorem c10_class_and_property_not_exclusive (g : Graph) (s : Term)
    (hc : (s, V.rdf_type, V.owl_Class) ∈ g.triples)
    (hp : (s, V.rdf_type, V.owl_ObjectProperty) ∈ g.triples
      ∨ (s, V.rdf_type, V.owl_DatatypeProperty) ∈ g.triples
      ∨ (s, V.rdf_type, V.rdf_Property) ∈ g.triples) :
    (∃ c ∈ collect_classes g, c.iri = termToStr s)
    ∧ (∃ p ∈ collect_properties g, p.iri = termToStr s) := by
  constructor
  · refine ⟨mkClassInfo g s, ?_, rfl⟩
    have : mkClassInfo g s ∈ (classSubjects g).map (mkClassInfo g) :=
      List.mem_map_of_mem _ (mem_classSubjects.mpr hc)
    simpa [collect_classes] using this
  · refine ⟨mkPropertyInfo g s, ?_, rfl⟩
    have : mkPropertyInfo g s ∈ (propSubjects g).map (mkPropertyInfo g) :=
      List.mem_map_of_mem _ (mem_propSubjects.mpr hp)
    simpa [collect_properties] using this

/-- Witness for C10: in `gBoth`, the doubly-typed subject appears in both
the class list and the property list. -/
theorem c10_class_and_property_not_exclusive_witness :
    (∃ c ∈ collect_classes gBoth, c.iri = termToStr (Term.uri "http://e/X"))
    ∧ (∃ p ∈ collect_properties gBoth, p.iri = termToStr (Term.uri "http://e/X")) :=
  c10_class_and_property_not_exclusive gBoth (Term.uri "http://e/X")
    (by decide) (Or.inl (by decide))

/-- Witness for C1 at concrete inputs: a list with an `"en"` literal
yields an `"en"` literal, a list without one yields its head, and the
empty list yields nothing. -/
theorem c1_literal_by_lang_en_selection_witness :
    (∃ r, (literal_by_lang [⟨"Titel", some "de"⟩, ⟨"Title", some "en"⟩] ["en"]).1 = some r
      ∧ r ∈ [⟨"Titel", some "de"⟩, ⟨"Title", some "en"⟩] ∧ r.lang = some "en")
    ∧ (literal_by_lang [⟨"Titel", some "de"⟩] ["en"]).1 = some ⟨"Titel", some "de"⟩
    ∧ (literal_by_lang ([] : List LitVal) ["en"]).1 = none := by
  refine ⟨(c1_literal_by_lang_en_selection _).1
      ⟨⟨"Title", some "en"⟩, by decide, rfl⟩, ?_,
    (c1_literal_by_lang_en_selection []).2.2 rfl⟩
  have h := (c1_literal_by_lang_en_selection [⟨"Titel", some "de"⟩]).2.1
    (by decide) (by decide)
  simpa using h

end Bhash
